import Mathlib

/-!
# TodoApp sync core: shallow embedding and verification

This file embeds the synchronization core of the TodoApp repository:

* the entity merge engine (`src/utils/syncMerge.ts`: `mergeTasks`,
  `mergeCategories`, `prepareTasks`, `prepareCategories`),
* the sealed-box crypto wrappers (`src/utils/crypto.ts` client side,
  `api/lib/crypto.ts` server side), with the libsodium sealed-box
  primitive — an external library, not repository code — modelled from
  the spec,
* the server sync handler (`api/t/[uid].ts`) over an explicit store
  state (`src/server/db.ts`),
* the client sync session (`src/pages/Sync.tsx`, `handleSync`),

and proves the spec's testable properties about those embeddings.
-/

namespace TodoApp

/-! ## Entities (src/types/user.ts shapes, as read by the merge engine)

The merge engine reads only `id`, `numericId` and `lastSave` of a task or
category; the remaining attributes ride along unchanged and are
represented here by a single opaque field (`title` resp. `name`).
`lastSave` is a timestamp in milliseconds; a missing `lastSave` is `none`
(the TypeScript code treats it as epoch 0 at comparison time). -/

structure Task where
  id : String
  numericId : Option Nat
  lastSave : Option Nat
  title : String
deriving DecidableEq, Repr

structure Category where
  id : String
  numericId : Option Nat
  lastSave : Option Nat
  name : String
deriving DecidableEq, Repr

/-- A JavaScript `Map<number | string, _>` key: numbers and strings never
collide as map keys. -/
abbrev MergeKey := Sum Nat String

/-- `task.numericId !== undefined ? task.numericId : task.id` -/
def taskKey (t : Task) : MergeKey :=
  match t.numericId with
  | some n => Sum.inl n
  | none => Sum.inr t.id

/-- `category.numericId !== undefined ? category.numericId : category.id` -/
def categoryKey (c : Category) : MergeKey :=
  match c.numericId with
  | some n => Sum.inl n
  | none => Sum.inr c.id

/-- `task.lastSave ? new Date(task.lastSave).getTime() : 0` -/
def taskSave (t : Task) : Nat :=
  match t.lastSave with
  | some n => n
  | none => 0

/-- `category.lastSave ? new Date(category.lastSave).getTime() : 0` -/
def catSave (c : Category) : Nat :=
  match c.lastSave with
  | some n => n
  | none => 0

/-! ## JavaScript `Map` model

Insertion-ordered association list with unique keys, as a JS `Map`
maintains: `set` on a present key overwrites the value in place, `set`
on an absent key appends. -/

def mapSet {α : Type} : List (MergeKey × α) → MergeKey → α → List (MergeKey × α)
  | [], k, v => [(k, v)]
  | p :: rest, k, v =>
      if p.1 = k then (k, v) :: rest else p :: mapSet rest k v

def mapGet {α : Type} : List (MergeKey × α) → MergeKey → Option α
  | [], _ => none
  | p :: rest, k => if p.1 = k then some p.2 else mapGet rest k

/-! ## Merge engine (src/utils/syncMerge.ts) -/

/-- The body of the remote loop of `mergeTasks`: if no local task shares
the key, add the remote task unless its id is tombstoned; if one does,
the strictly newer `lastSave` wins and ties keep the local task. -/
def mergeTaskStep (deletedTasks : List String) (m : List (MergeKey × Task))
    (remoteTask : Task) : List (MergeKey × Task) :=
  match mapGet m (taskKey remoteTask) with
  | none =>
      if remoteTask.id ∈ deletedTasks then m
      else mapSet m (taskKey remoteTask) remoteTask
  | some localTask =>
      if taskSave remoteTask > taskSave localTask then
        mapSet m (taskKey remoteTask) remoteTask
      else m

/-- `mergeTasks(localTasks, remoteTasks, deletedTasks)` from
src/utils/syncMerge.ts: seed a map with the local tasks, fold the remote
tasks through `mergeTaskStep`, then drop every task whose id is in
`deletedTasks`. -/
def mergeTasks (localTasks remoteTasks : List Task)
    (deletedTasks : List String) : List Task :=
  let m0 := localTasks.foldl (fun m t => mapSet m (taskKey t) t) []
  let m1 := remoteTasks.foldl (mergeTaskStep deletedTasks) m0
  (m1.map Prod.snd).filter (fun t => decide (t.id ∉ deletedTasks))

/-- The body of the remote loop of `mergeCategories` (same algorithm as
`mergeTaskStep`, over categories). -/
def mergeCategoryStep (deletedCategories : List String)
    (m : List (MergeKey × Category)) (remoteCategory : Category) :
    List (MergeKey × Category) :=
  match mapGet m (categoryKey remoteCategory) with
  | none =>
      if remoteCategory.id ∈ deletedCategories then m
      else mapSet m (categoryKey remoteCategory) remoteCategory
  | some localCategory =>
      if catSave remoteCategory > catSave localCategory then
        mapSet m (categoryKey remoteCategory) remoteCategory
      else m

/-- `mergeCategories(localCategories, remoteCategories, deletedCategories)`
from src/utils/syncMerge.ts. -/
def mergeCategories (localCategories remoteCategories : List Category)
    (deletedCategories : List String) : List Category :=
  let m0 := localCategories.foldl (fun m c => mapSet m (categoryKey c) c) []
  let m1 := remoteCategories.foldl (mergeCategoryStep deletedCategories) m0
  (m1.map Prod.snd).filter (fun c => decide (c.id ∉ deletedCategories))

/-- `prepareTasks` from src/utils/syncMerge.ts: re-stamp every task's
`lastSave` to now. -/
def prepareTasks (tasks : List Task) (now : Nat) : List Task :=
  tasks.map (fun t => { t with lastSave := some now })

/-- `prepareCategories` from src/utils/syncMerge.ts. -/
def prepareCategories (categories : List Category) (now : Nat) : List Category :=
  categories.map (fun c => { c with lastSave := some now })

/-! ## Sealed-box codec

Modelled from the spec: the libsodium sealed box
(`crypto_box_seal` / `crypto_box_seal_open` and
`crypto_box_seed_keypair`) is external library code, not part of the
repository.  Per spec §4.2 the construction generates an ephemeral
keypair, performs a key exchange with the recipient's public key,
derives a symmetric key, authenticated-encrypts the plaintext and
prepends the ephemeral public key.  The model realises this with a
discrete-exponential key exchange over `Nat` arithmetic mod a fixed
modulus, a shift cipher on bytes as the symmetric layer, and an explicit
authentication tag; randomness (the ephemeral scalar) is an explicit
argument. -/

abbrev Byte := Fin 256

/-- Modulus of the model's key-exchange group. -/
def boxMod : Nat := 251

/-- Generator of the model's key-exchange group. -/
def boxGen : Nat := 6

/-- Public key corresponding to a secret scalar. -/
def scalarMultBase (a : Nat) : Nat := boxGen ^ a % boxMod

/-- Key exchange: combine a peer public key with an own secret scalar. -/
def keyExchange (pk a : Nat) : Nat := pk ^ a % boxMod

/-- Byte used by the model's symmetric layer for a shared key. -/
def keyByte (k : Nat) : Byte := ⟨k % 256, Nat.mod_lt _ (by decide)⟩

/-- A sealed box: ephemeral public key prefix, authentication tag,
symmetrically encrypted body. -/
structure SealedBox where
  ephPk : Nat
  tag : Nat
  body : List Byte
deriving DecidableEq, Repr

/-- Modelled from the spec: `sodium.crypto_box_seal(m, pk)` with the
ephemeral scalar made explicit. -/
def cryptoBoxSeal (m : List Byte) (pk : Nat) (eph : Nat) : SealedBox :=
  let sharedKey := keyExchange pk eph
  { ephPk := scalarMultBase eph
    tag := (sharedKey + pk + 1) % boxMod
    body := m.map (fun b => b + keyByte sharedKey) }

/-- Modelled from the spec: `sodium.crypto_box_seal_open(c, pk, sk)`;
fails (returns `none`) when the box was sealed to a different key or
tampered with. -/
def cryptoBoxSealOpen (c : SealedBox) (pk : Nat) (sk : Nat) :
    Option (List Byte) :=
  let sharedKey := keyExchange c.ephPk sk
  if c.tag = (sharedKey + pk + 1) % boxMod then
    some (c.body.map (fun b => b - keyByte sharedKey))
  else none

/-- Modelled from the spec: `sodium.crypto_box_seed_keypair(seed)` —
deterministic (public, secret) keypair from a 32-byte seed, here a
natural-number seed.  Used by `generateKeyPairFromSeed` in
src/utils/crypto.ts. -/
def cryptoBoxSeedKeypair (seed : Nat) : Nat × Nat :=
  (scalarMultBase seed, seed)

/-- `generateKeyPairFromSeed` from src/utils/crypto.ts: seed in, hex
`{publicKey, privateKey}` out (hex transport elided; keys are the model's
numeric keys). -/
def generateKeyPairFromSeed (seed : Nat) : Nat × Nat :=
  cryptoBoxSeedKeypair seed

/-- `encryptData(data, publicKeyHex)` from api/lib/crypto.ts: sealed-box
encrypt the serialized data to the user's public key (hex/base64
transport encodings elided; the plaintext is the serialized byte
string). -/
def encryptData (data : List Byte) (publicKey : Nat) (eph : Nat) : SealedBox :=
  cryptoBoxSeal data publicKey eph

/-- `decryptData(encryptedBase64, publicKeyHex, privateKeyHex)` from
src/utils/crypto.ts: sealed-box open with the user's keypair; `none` is
the thrown decryption error. -/
def decryptData (c : SealedBox) (publicKey privateKey : Nat) :
    Option (List Byte) :=
  cryptoBoxSealOpen c publicKey privateKey

/-! ## Server model (src/server/db.ts and api/t/[uid].ts)

The Durable Store (a Postgres database in the source) is an explicit
state: the `users` and `user_data` tables as lists of rows.  `now` stands
for `Date.now()` and `eph` for the sealed-box ephemeral randomness; both
are explicit arguments.  The handler result carries the final store
state and the trace of store accesses, so that "no store access" and
"no write" are directly observable. -/

structure User where
  uid : String
  public_key_hash : String
  public_key : Nat
  created_at : Nat
deriving DecidableEq, Repr

structure UserData where
  uid : String
  encrypted_data : Option SealedBox
  version : Nat
  updated_at : Nat
deriving DecidableEq, Repr

structure Db where
  users : List User
  userData : List UserData
deriving DecidableEq, Repr

/-- Foreign-key invariant of the schema (initializeDatabase in
src/server/db.ts): every `user_data` row references an existing user. -/
def Db.wf (db : Db) : Prop :=
  ∀ d ∈ db.userData, ∃ u ∈ db.users, u.uid = d.uid

/-- `getUser` from src/server/db.ts: `SELECT ... FROM users WHERE uid = $1`. -/
def getUser (db : Db) (uid : String) : Option User :=
  db.users.find? (fun u => u.uid == uid)

/-- `getUserData` from src/server/db.ts: `SELECT ... FROM user_data WHERE
uid = $1`. -/
def getUserData (db : Db) (uid : String) : Option UserData :=
  db.userData.find? (fun d => d.uid == uid)

/-- `createUser` from src/server/db.ts: a plain INSERT into `users`; the
schema's PRIMARY KEY on `uid` and UNIQUE constraint on `public_key_hash`
make the insert throw when either is already taken. -/
def createUser (db : Db) (uid publicKeyHash : String) (publicKey : Nat)
    (now : Nat) : Except String Db :=
  if db.users.any (fun u => u.public_key_hash == publicKeyHash) then
    .error "duplicate key value violates unique constraint"
  else if db.users.any (fun u => u.uid == uid) then
    .error "duplicate key value violates unique constraint"
  else
    .ok { db with users := db.users ++ [⟨uid, publicKeyHash, publicKey, now⟩] }

/-- The row-level effect of `INSERT ... ON CONFLICT (uid) DO UPDATE` in
`saveUserData`: replace the row keyed by `row.uid` or append it. -/
def upsertUserData : List UserData → UserData → List UserData
  | [], row => [row]
  | d :: rest, row =>
      if d.uid = row.uid then row :: rest else d :: upsertUserData rest row

/-- `saveUserData(uid, encryptedData, version?)` from src/server/db.ts:
`newVersion = (version !== undefined ? version : 0) + 1`, upsert the
record, return the new version. -/
def saveUserData (db : Db) (uid : String) (encryptedData : SealedBox)
    (version : Option Nat) (now : Nat) : Db × Nat :=
  let currentVersion := match version with | some v => v | none => 0
  let newVersion := currentVersion + 1
  ({ db with
      userData := upsertUserData db.userData ⟨uid, some encryptedData, newVersion, now⟩ },
    newVersion)

/-- Modelled from the spec: SHA-256 of the hex-encoded public key (the
source delegates to Node's `createHash` in api/lib/crypto.ts, external
library code); abstracted as an injective executable digest. -/
def sha256 (publicKey : Nat) : String := toString publicKey

/-- `validatePublicKeyHash` from api/lib/crypto.ts: recompute the hash of
the claimed public key and compare. -/
def validatePublicKeyHash (publicKey : Nat) (publicKeyHash : String) : Bool :=
  sha256 publicKey == publicKeyHash

/-- The request body of `POST /api/t/:uid` (src/server/types.ts shape);
absent fields are `none` (TypeScript `undefined`). -/
structure SyncRequest where
  publicKeyHash : Option String
  publicKey : Option Nat
  data : Option (List Byte)
  merged : Option Bool
deriving DecidableEq, Repr

structure SyncResponse where
  encryptedData : SealedBox
  version : Nat
  needsMerge : Bool
deriving DecidableEq, Repr

inductive StoreEvent where
  | readUser (uid : String)
  | writeUser (uid : String)
  | readData (uid : String)
  | writeData (uid : String)
deriving DecidableEq, Repr

inductive HandlerResult where
  | ok (response : SyncResponse)
  | err (status : Nat) (error : String)
deriving DecidableEq, Repr

/-- The generic authentication error body, returned with status 403 at
both rejection sites of the handler (api/t/[uid].ts lines 78 and 98). -/
def authErrMsg : String := "Invalid user ID or password"

def missingFieldsMsg : String :=
  "Missing required fields: publicKeyHash, publicKey, data"

/-- The write branch of the handler (api/t/[uid].ts lines 104-122):
encrypt the client's data to the user's public key, save it with version
one above the previously stored version, answer `needsMerge := false`. -/
def handlerWrite (db : Db) (evs : List StoreEvent) (uid : String)
    (data : List Byte) (user : User) (prevVersion : Option Nat)
    (now eph : Nat) : Db × List StoreEvent × HandlerResult :=
  let encrypted := encryptData data user.public_key eph
  let saved := saveUserData db uid encrypted prevVersion now
  (saved.1, evs ++ [.writeData uid], .ok ⟨encrypted, saved.2, false⟩)

/-- api/t/[uid].ts lines 95-136, once an identity row is at hand: reject
on a stored-hash mismatch, read the stored data record, then either write
(`!existingData || !existingData.encrypted_data || merged === true`) or
return the existing ciphertext with `needsMerge := true`. -/
def handlerWithUser (db : Db) (evs : List StoreEvent) (uid pkh : String)
    (data : List Byte) (merged : Option Bool) (user : User) (now eph : Nat) :
    Db × List StoreEvent × HandlerResult :=
  if user.public_key_hash ≠ pkh then (db, evs, .err 403 authErrMsg)
  else
    match getUserData db uid with
    | none =>
        handlerWrite db (evs ++ [.readData uid]) uid data user none now eph
    | some d =>
        match d.encrypted_data with
        | none =>
            handlerWrite db (evs ++ [.readData uid]) uid data user
              (some d.version) now eph
        | some c =>
            if merged = some true then
              handlerWrite db (evs ++ [.readData uid]) uid data user
                (some d.version) now eph
            else
              (db, evs ++ [.readData uid], .ok ⟨c, d.version, true⟩)

/-- The server sync handler, api/t/[uid].ts: validate the body fields,
validate the claimed public-key hash, resolve or auto-register the
identity (a thrown store error is caught and becomes the generic 500),
then branch on the stored data record. -/
def handler (db : Db) (uid : String) (req : SyncRequest) (now eph : Nat) :
    Db × List StoreEvent × HandlerResult :=
  match req.publicKeyHash, req.publicKey, req.data with
  | some pkh, some pk, some data =>
      if pkh = "" then (db, [], .err 400 missingFieldsMsg)
      else if ¬ validatePublicKeyHash pk pkh then
        (db, [], .err 403 authErrMsg)
      else
        match getUser db uid with
        | some user =>
            handlerWithUser db [.readUser uid] uid pkh data req.merged user
              now eph
        | none =>
            match createUser db uid pkh pk now with
            | .error _ => (db, [.readUser uid], .err 500 "Internal server error")
            | .ok db1 =>
                match getUser db1 uid with
                | none =>
                    (db1, [.readUser uid, .writeUser uid, .readUser uid],
                      .err 500 "Internal server error")
                | some user =>
                    handlerWithUser db1
                      [.readUser uid, .writeUser uid, .readUser uid] uid pkh
                      data req.merged user now eph
  | _, _, _ => (db, [], .err 400 missingFieldsMsg)

/-! ## Lemmas about the codec -/

theorem keyExchange_comm (a b : Nat) :
    keyExchange (scalarMultBase a) b = keyExchange (scalarMultBase b) a := by
  unfold keyExchange scalarMultBase
  calc (boxGen ^ a % boxMod) ^ b % boxMod
      = (boxGen ^ a) ^ b % boxMod := by rw [← Nat.pow_mod]
    _ = boxGen ^ (a * b) % boxMod := by rw [← pow_mul]
    _ = boxGen ^ (b * a) % boxMod := by rw [Nat.mul_comm]
    _ = (boxGen ^ b) ^ a % boxMod := by rw [pow_mul]
    _ = (boxGen ^ b % boxMod) ^ a % boxMod := by rw [← Nat.pow_mod]

theorem cryptoBoxSealOpen_seal (m : List Byte) (sk eph : Nat) :
    cryptoBoxSealOpen (cryptoBoxSeal m (scalarMultBase sk) eph)
      (scalarMultBase sk) sk = some m := by
  unfold cryptoBoxSeal cryptoBoxSealOpen
  simp [keyExchange_comm eph sk, List.map_map, Function.comp_def,
    add_sub_cancel_right]

/-! ## Lemmas about the merge engine -/

theorem mapSet_eq_append {α : Type} (m : List (MergeKey × α)) (k : MergeKey)
    (v : α) (h : ∀ p ∈ m, p.1 ≠ k) : mapSet m k v = m ++ [(k, v)] := by
  induction m with
  | nil => rfl
  | cons p rest ih =>
      rw [mapSet, if_neg (h p (List.mem_cons_self p rest)), ih]
      · rfl
      · exact fun q hq => h q (List.mem_cons_of_mem p hq)

theorem foldl_mapSet_nodup (X : List Task) (m : List (MergeKey × Task))
    (hdisj : ∀ t ∈ X, ∀ p ∈ m, p.1 ≠ taskKey t)
    (hnd : X.Pairwise (fun a b => taskKey a ≠ taskKey b)) :
    X.foldl (fun m t => mapSet m (taskKey t) t) m
      = m ++ X.map (fun t => (taskKey t, t)) := by
  induction X generalizing m with
  | nil => simp
  | cons t X ih =>
      rw [List.foldl_cons,
        mapSet_eq_append m (taskKey t) t
          (hdisj t (List.mem_cons_self t X)),
        ih (m ++ [(taskKey t, t)])]
      · simp
      · intro q hq p hp
        rcases List.mem_append.mp hp with hp | hp
        · exact hdisj q (List.mem_cons_of_mem t hq) p hp
        · have : p = (taskKey t, t) := List.mem_singleton.mp hp
          rw [this]
          exact (List.pairwise_cons.mp hnd).1 q hq
      · exact (List.pairwise_cons.mp hnd).2

theorem mapGet_map_self (X : List Task)
    (hnd : X.Pairwise (fun a b => taskKey a ≠ taskKey b)) (r : Task)
    (hr : r ∈ X) :
    mapGet (X.map (fun t => (taskKey t, t))) (taskKey r) = some r := by
  induction X with
  | nil => cases hr
  | cons t X ih =>
      rcases List.mem_cons.mp hr with hr | hr
      · subst hr
        simp [mapGet]
      · rw [List.map_cons, mapGet,
          if_neg (by exact (List.pairwise_cons.mp hnd).1 r hr)]
        exact ih (List.pairwise_cons.mp hnd).2 hr

theorem foldl_mergeTaskStep_fixed (rs : List Task) (ts : List String)
    (m : List (MergeKey × Task)) (h : ∀ r ∈ rs, mapGet m (taskKey r) = some r) :
    rs.foldl (mergeTaskStep ts) m = m := by
  induction rs with
  | nil => rfl
  | cons r rs ih =>
      rw [List.foldl_cons]
      have hstep : mergeTaskStep ts m r = m := by
        rw [mergeTaskStep, h r (List.mem_cons_self r rs)]
        simp
      rw [hstep]
      exact ih (fun q hq => h q (List.mem_cons_of_mem r hq))

/-! ## Claim theorems about the merge engine -/

/-- Claim C2: tombstone dominance — for every local collection, remote
collection and tombstone set, no entity whose id is in the tombstone set
appears in the output of `mergeTasks` or `mergeCategories`, regardless of
which side contained it. -/
theorem merge_tombstone_dominance :
    (∀ (localTasks remoteTasks : List Task) (deletedTasks : List String)
        (t : Task), t ∈ mergeTasks localTasks remoteTasks deletedTasks →
        t.id ∉ deletedTasks) ∧
    (∀ (localCategories remoteCategories : List Category)
        (deletedCategories : List String) (c : Category),
        c ∈ mergeCategories localCategories remoteCategories deletedCategories →
        c.id ∉ deletedCategories) := by
  constructor
  · intro lt rt ts t ht
    rw [mergeTasks] at ht
    exact of_decide_eq_true (List.mem_filter.mp ht).2
  · intro lc rc ts c hc
    rw [mergeCategories] at hc
    exact of_decide_eq_true (List.mem_filter.mp hc).2

/-- Witness for C2: a concrete tombstoned id is absent from a concrete
merge output. -/
theorem merge_tombstone_dominance_witness :
    (⟨"a", some 1, some 5, "A"⟩ : Task).id ∉ ["z"] ∧
    (⟨"c", some 2, some 5, "C"⟩ : Category).id ∉ ["z"] :=
  ⟨merge_tombstone_dominance.1 [⟨"a", some 1, some 5, "A"⟩] [] ["z"]
      ⟨"a", some 1, some 5, "A"⟩ (by decide),
    merge_tombstone_dominance.2 [⟨"c", some 2, some 5, "C"⟩] [] ["z"]
      ⟨"c", some 2, some 5, "C"⟩ (by decide)⟩

/-- Claim C3 counterexample: merging a collection with itself is NOT the
identity (even modulo ordering) when the collection contains an entity
whose id is tombstoned — the final tombstone filter removes it. -/
theorem mergeTasks_self_tombstone_cex :
    ¬ (mergeTasks [⟨"a", none, none, "A"⟩] [⟨"a", none, none, "A"⟩]
        ["a"]).Perm [(⟨"a", none, none, "A"⟩ : Task)] := by
  decide

/-- Claim C3 (amended): `mergeTasks X X ts = X` (exactly, hence also
modulo ordering) provided the elements of `X` have pairwise distinct
merge keys and no element of `X` has its id in the tombstone set. -/
theorem mergeTasks_self_restricted (X : List Task) (ts : List String)
    (hnd : (X.map taskKey).Nodup) (hts : ∀ t ∈ X, t.id ∉ ts) :
    mergeTasks X X ts = X := by
  have hpw : X.Pairwise (fun a b => taskKey a ≠ taskKey b) := by
    rw [List.Nodup, List.pairwise_map] at hnd
    exact hnd
  have h0 : X.foldl (fun m t => mapSet m (taskKey t) t)
      ([] : List (MergeKey × Task)) = X.map (fun t => (taskKey t, t)) := by
    have := foldl_mapSet_nodup X [] (fun t _ p hp => absurd hp (List.not_mem_nil p)) hpw
    simpa using this
  have h1 : X.foldl (mergeTaskStep ts) (X.map fun t => (taskKey t, t))
      = X.map fun t => (taskKey t, t) :=
    foldl_mergeTaskStep_fixed X ts _ (fun r hr => mapGet_map_self X hpw r hr)
  show ((X.foldl (mergeTaskStep ts)
      (X.foldl (fun m t => mapSet m (taskKey t) t) [])).map Prod.snd).filter
      (fun t => decide (t.id ∉ ts)) = X
  rw [h0, h1, List.map_map]
  have h2 : X.map (Prod.snd ∘ fun t => (taskKey t, t)) = X := by
    simp [Function.comp_def]
  rw [h2]
  exact List.filter_eq_self.mpr (fun t ht => decide_eq_true (hts t ht))

/-- Witness for the amended C3: a concrete two-element collection with
distinct keys and no tombstoned ids merges with itself to itself. -/
theorem mergeTasks_self_restricted_witness :
    mergeTasks [⟨"a", some 1, some 3, "A"⟩, ⟨"b", some 2, some 4, "B"⟩]
      [⟨"a", some 1, some 3, "A"⟩, ⟨"b", some 2, some 4, "B"⟩] ["z"]
      = [⟨"a", some 1, some 3, "A"⟩, ⟨"b", some 2, some 4, "B"⟩] :=
  mergeTasks_self_restricted
    [⟨"a", some 1, some 3, "A"⟩, ⟨"b", some 2, some 4, "B"⟩] ["z"]
    (by decide) (by decide)

/-- Claim C4: newer-wins — for a local task and a remote task sharing a
merge key, neither id tombstoned, the merge output is exactly the variant
with the strictly greater `lastSave`, and exactly the local variant on
equal timestamps. -/
theorem mergeTasks_newer_wins (l r : Task) (ts : List String)
    (hkey : taskKey l = taskKey r) (hl : l.id ∉ ts) (hr : r.id ∉ ts) :
    (taskSave r > taskSave l → mergeTasks [l] [r] ts = [r]) ∧
    (taskSave l = taskSave r → mergeTasks [l] [r] ts = [l]) ∧
    (taskSave l > taskSave r → mergeTasks [l] [r] ts = [l]) := by
  refine ⟨fun h => ?_, fun h => ?_, fun h => ?_⟩
  · simp [mergeTasks, mergeTaskStep, mapGet, mapSet, hkey, h, hr]
  · have hnot : ¬ taskSave r > taskSave l := by omega
    simp [mergeTasks, mergeTaskStep, mapGet, mapSet, hkey, hnot, hl]
  · have hnot : ¬ taskSave r > taskSave l := by omega
    simp [mergeTasks, mergeTaskStep, mapGet, mapSet, hkey, hnot, hl]

/-- Witness for C4: with key 1 on both sides, the remote task with the
later timestamp is exactly the merge output. -/
theorem mergeTasks_newer_wins_witness :
    mergeTasks [⟨"a", some 1, some 1, "old"⟩] [⟨"b", some 1, some 2, "new"⟩]
      [] = [⟨"b", some 1, some 2, "new"⟩] :=
  (mergeTasks_newer_wins ⟨"a", some 1, some 1, "old"⟩
    ⟨"b", some 1, some 2, "new"⟩ [] (by decide) (by decide) (by decide)).1
    (by decide)

/-- Claim C10: a tombstoned remote entity that shares a merge key with a
non-tombstoned local entity and has a strictly newer `lastSave` first
replaces the local entity in the merge map and is then filtered out, so
the output contains neither. -/
theorem merge_tombstoned_remote_drops_local :
    (∀ (l r : Task) (ts : List String), taskKey l = taskKey r →
      l.id ∉ ts → r.id ∈ ts → taskSave r > taskSave l →
      mergeTasks [l] [r] ts = []) ∧
    (∀ (l r : Category) (ts : List String), categoryKey l = categoryKey r →
      l.id ∉ ts → r.id ∈ ts → catSave r > catSave l →
      mergeCategories [l] [r] ts = []) := by
  constructor
  · intro l r ts hkey _ hr hnew
    simp [mergeTasks, mergeTaskStep, mapGet, mapSet, hkey, hnew, hr]
  · intro l r ts hkey _ hr hnew
    simp [mergeCategories, mergeCategoryStep, mapGet, mapSet, hkey, hnew, hr]

/-- Witness for C10: concrete task and category pairs where the
tombstoned, newer remote variant silently drops the local one. -/
theorem merge_tombstoned_remote_drops_local_witness :
    mergeTasks [⟨"a", some 1, some 1, "A"⟩] [⟨"b", some 1, some 2, "B"⟩]
      ["b"] = [] ∧
    mergeCategories [⟨"c", some 1, some 1, "C"⟩] [⟨"d", some 1, some 2, "D"⟩]
      ["d"] = [] :=
  ⟨merge_tombstoned_remote_drops_local.1 ⟨"a", some 1, some 1, "A"⟩
      ⟨"b", some 1, some 2, "B"⟩ ["b"] (by decide) (by decide) (by decide)
      (by decide),
    merge_tombstoned_remote_drops_local.2 ⟨"c", some 1, some 1, "C"⟩
      ⟨"d", some 1, some 2, "D"⟩ ["d"] (by decide) (by decide) (by decide)
      (by decide)⟩

/-- Claim C8: sealed-box round trip — for every plaintext byte string and
every keypair produced by the seeded keypair generation,
`decryptData (encryptData plaintext pub) pub priv` returns exactly the
original plaintext (for every ephemeral scalar the encryptor draws). -/
theorem sealedBox_roundTrip (seed eph : Nat) (m : List Byte) :
    decryptData (encryptData m (generateKeyPairFromSeed seed).1 eph)
      (generateKeyPairFromSeed seed).1 (generateKeyPairFromSeed seed).2
      = some m :=
  cryptoBoxSealOpen_seal m seed eph

/-! ## Lemmas about the store -/

theorem find?_upsertUserData (l : List UserData) (row : UserData) :
    (upsertUserData l row).find? (fun d => d.uid == row.uid) = some row := by
  induction l with
  | nil => simp [upsertUserData]
  | cons d rest ih =>
      by_cases h : d.uid = row.uid
      · simp [upsertUserData, h]
      · rw [upsertUserData, if_neg h,
          List.find?_cons_of_neg _ (by simpa using h)]
        exact ih

theorem getUserData_saveUserData (db : Db) (uid : String) (enc : SealedBox)
    (version : Option Nat) (now : Nat) :
    getUserData (saveUserData db uid enc version now).1 uid
      = some ⟨uid, some enc,
          (match version with | some v => v | none => 0) + 1, now⟩ := by
  show List.find? (fun d => d.uid == uid)
      (upsertUserData db.userData
        ⟨uid, some enc, (match version with | some v => v | none => 0) + 1, now⟩)
      = _
  exact find?_upsertUserData db.userData
    ⟨uid, some enc, (match version with | some v => v | none => 0) + 1, now⟩

theorem users_saveUserData (db : Db) (uid : String) (enc : SealedBox)
    (version : Option Nat) (now : Nat) :
    (saveUserData db uid enc version now).1.users = db.users := rfl

theorem getUserData_eq_none_of_no_user (db : Db) (uid : String)
    (hwf : db.wf) (h : getUser db uid = none) : getUserData db uid = none := by
  rw [getUserData, List.find?_eq_none]
  intro d hd hdu
  rcases hwf d hd with ⟨u, hu, huid⟩
  have hdu' : d.uid = uid := by simpa using hdu
  have hnu := (List.find?_eq_none.mp h) u hu
  exact hnu (by simpa using huid.trans hdu')

/-! ## Claim theorems about the server handler -/

/-- Claim C7: a request whose claimed `publicKeyHash` is not the hash of
its `publicKey` is rejected with the generic 403 before any access to the
store (empty access trace, store unchanged); a stored-hash mismatch is
rejected with the byte-identical status and message after only the
identity read. -/
theorem handler_auth_rejection :
    (∀ (db : Db) (uid : String) (req : SyncRequest) (now eph : Nat)
        (pkh : String) (pk : Nat) (data : List Byte),
        req.publicKeyHash = some pkh → pkh ≠ "" → req.publicKey = some pk →
        req.data = some data → sha256 pk ≠ pkh →
        handler db uid req now eph = (db, [], .err 403 authErrMsg)) ∧
    (∀ (db : Db) (uid : String) (req : SyncRequest) (now eph : Nat)
        (pkh : String) (pk : Nat) (data : List Byte) (user : User),
        req.publicKeyHash = some pkh → pkh ≠ "" → req.publicKey = some pk →
        req.data = some data → sha256 pk = pkh →
        getUser db uid = some user → user.public_key_hash ≠ pkh →
        handler db uid req now eph
          = (db, [StoreEvent.readUser uid], .err 403 authErrMsg)) := by
  constructor
  · intro db uid req now eph pkh pk data h1 h2 h3 h4 h5
    simp [handler, h1, h2, h3, h4, validatePublicKeyHash, h5]
  · intro db uid req now eph pkh pk data user h1 h2 h3 h4 h5 h6 h7
    simp [handler, h1, h2, h3, h4, validatePublicKeyHash, h5, h6,
      handlerWithUser, h7]

/-- Witness for C7: a concrete forged-hash request is rejected without
store access, and a concrete wrong-stored-hash request is rejected with
the identical error after the identity read. -/
theorem handler_auth_rejection_witness :
    handler ⟨[], []⟩ "alice" ⟨some "x", some 5, some [], some false⟩ 0 0
      = (⟨[], []⟩, [], .err 403 authErrMsg) ∧
    handler ⟨[⟨"alice", "other", 7, 0⟩], []⟩ "alice"
        ⟨some "7", some 7, some [], some false⟩ 0 0
      = (⟨[⟨"alice", "other", 7, 0⟩], []⟩, [StoreEvent.readUser "alice"],
          .err 403 authErrMsg) :=
  ⟨handler_auth_rejection.1 ⟨[], []⟩ "alice"
      ⟨some "x", some 5, some [], some false⟩ 0 0 "x" 5 [] rfl (by decide)
      rfl rfl (by decide),
    handler_auth_rejection.2 ⟨[⟨"alice", "other", 7, 0⟩], []⟩ "alice"
      ⟨some "7", some 7, some [], some false⟩ 0 0 "7" 7 [] ⟨"alice", "other", 7, 0⟩
      rfl (by decide) rfl rfl (by decide) (by decide) (by decide)⟩

/-- Claim C1: with a stored data record whose ciphertext is non-null and
a `merged:false` request that authenticates, the handler performs no
store write (trace is the two reads, store state unchanged) and returns
exactly the stored ciphertext and version with `needsMerge := true`; in
particular the stored record — its version included — is unchanged. -/
theorem handler_merge_required (db : Db) (uid : String) (req : SyncRequest)
    (now eph : Nat) (pkh : String) (pk : Nat) (data : List Byte)
    (user : User) (d : UserData) (c : SealedBox)
    (h1 : req.publicKeyHash = some pkh) (h2 : pkh ≠ "")
    (h3 : req.publicKey = some pk) (h4 : req.data = some data)
    (h5 : sha256 pk = pkh) (h6 : getUser db uid = some user)
    (h7 : user.public_key_hash = pkh) (h8 : getUserData db uid = some d)
    (h9 : d.encrypted_data = some c) (h10 : req.merged = some false) :
    handler db uid req now eph
      = (db, [StoreEvent.readUser uid, StoreEvent.readData uid],
          .ok ⟨c, d.version, true⟩) ∧
    getUserData (handler db uid req now eph).1 uid = some d := by
  have hmain : handler db uid req now eph
      = (db, [StoreEvent.readUser uid, StoreEvent.readData uid],
          .ok ⟨c, d.version, true⟩) := by
    simp [handler, h1, h2, h3, h4, validatePublicKeyHash, h5, h6,
      handlerWithUser, h7, h8, h9, h10]
  exact ⟨hmain, by rw [hmain]; exact h8⟩

/-- Witness for C1: a concrete second-device `merged:false` sync against
a stored record at version 4 returns the stored box and version with
`needsMerge`, leaving the store untouched. -/
theorem handler_merge_required_witness :
    handler ⟨[⟨"alice", "5", 5, 0⟩],
        [⟨"alice", some ⟨216, 131, [⟨7, by omega⟩]⟩, 4, 0⟩]⟩ "alice"
      ⟨some "5", some 5, some [], some false⟩ 100 3
      = (⟨[⟨"alice", "5", 5, 0⟩],
          [⟨"alice", some ⟨216, 131, [⟨7, by omega⟩]⟩, 4, 0⟩]⟩,
          [StoreEvent.readUser "alice", StoreEvent.readData "alice"],
          .ok ⟨⟨216, 131, [⟨7, by omega⟩]⟩, 4, true⟩) :=
  (handler_merge_required _ "alice" _ 100 3 "5" 5 [] ⟨"alice", "5", 5, 0⟩
    ⟨"alice", some ⟨216, 131, [⟨7, by omega⟩]⟩, 4, 0⟩ ⟨216, 131, [⟨7, by omega⟩]⟩
    rfl (by decide) rfl rfl (by decide) (by decide) (by decide) (by decide)
    (by decide) rfl).1

/-- Claim C6: a `merged:true` request that authenticates, against a
stored record at version `v`, writes exactly one new record at version
`v + 1` whose ciphertext is the client's submitted payload encrypted to
the identity's public key, and that ciphertext decrypts under the
identity's private key to exactly that payload. -/
theorem handler_phase2_commit (db : Db) (uid : String) (req : SyncRequest)
    (now eph : Nat) (pkh : String) (pk : Nat) (data : List Byte)
    (user : User) (d : UserData) (sk : Nat)
    (h1 : req.publicKeyHash = some pkh) (h2 : pkh ≠ "")
    (h3 : req.publicKey = some pk) (h4 : req.data = some data)
    (h5 : sha256 pk = pkh) (h6 : getUser db uid = some user)
    (h7 : user.public_key_hash = pkh) (h8 : getUserData db uid = some d)
    (h9 : req.merged = some true)
    (h10 : user.public_key = scalarMultBase sk) :
    (handler db uid req now eph).2.2
      = .ok ⟨encryptData data user.public_key eph, d.version + 1, false⟩ ∧
    (handler db uid req now eph).2.1
      = [StoreEvent.readUser uid, StoreEvent.readData uid,
          StoreEvent.writeData uid] ∧
    getUserData (handler db uid req now eph).1 uid
      = some ⟨uid, some (encryptData data user.public_key eph),
          d.version + 1, now⟩ ∧
    decryptData (encryptData data user.public_key eph) user.public_key sk
      = some data := by
  have hred : handler db uid req now eph
      = handlerWrite db [StoreEvent.readUser uid, StoreEvent.readData uid]
          uid data user (some d.version) now eph := by
    cases hc : d.encrypted_data with
    | none =>
        simp [handler, h1, h2, h3, h4, validatePublicKeyHash, h5, h6,
          handlerWithUser, h7, h8, hc, h9]
    | some c =>
        simp [handler, h1, h2, h3, h4, validatePublicKeyHash, h5, h6,
          handlerWithUser, h7, h8, hc, h9]
  refine ⟨by rw [hred]; rfl, by rw [hred]; rfl, ?_, ?_⟩
  · rw [hred]
    exact getUserData_saveUserData db uid _ (some d.version) now
  · rw [h10]
    exact cryptoBoxSealOpen_seal data sk eph

/-- Witness for C6: against a concrete stored record at version 4, a
concrete `merged:true` request yields version 5, the freshly encrypted
box both in the response and in the store, and that box decrypts back to
the submitted payload. -/
theorem handler_phase2_commit_witness :
    (handler ⟨[⟨"alice", "36", 36, 0⟩],
        [⟨"alice", some ⟨216, 131, [⟨9, by omega⟩]⟩, 4, 0⟩]⟩ "alice"
      ⟨some "36", some 36, some [⟨7, by omega⟩], some true⟩ 100 3).2.2
      = .ok ⟨encryptData [⟨7, by omega⟩] 36 3, 5, false⟩ ∧
    (handler ⟨[⟨"alice", "36", 36, 0⟩],
        [⟨"alice", some ⟨216, 131, [⟨9, by omega⟩]⟩, 4, 0⟩]⟩ "alice"
      ⟨some "36", some 36, some [⟨7, by omega⟩], some true⟩ 100 3).2.1
      = [StoreEvent.readUser "alice", StoreEvent.readData "alice",
          StoreEvent.writeData "alice"] ∧
    getUserData (handler ⟨[⟨"alice", "36", 36, 0⟩],
        [⟨"alice", some ⟨216, 131, [⟨9, by omega⟩]⟩, 4, 0⟩]⟩ "alice"
      ⟨some "36", some 36, some [⟨7, by omega⟩], some true⟩ 100 3).1 "alice"
      = some ⟨"alice", some (encryptData [⟨7, by omega⟩] 36 3), 5, 100⟩ ∧
    decryptData (encryptData [⟨7, by omega⟩] 36 3) 36 2
      = some [⟨7, by omega⟩] :=
  handler_phase2_commit ⟨[⟨"alice", "36", 36, 0⟩],
      [⟨"alice", some ⟨216, 131, [⟨9, by omega⟩]⟩, 4, 0⟩]⟩ "alice"
    ⟨some "36", some 36, some [⟨7, by omega⟩], some true⟩ 100 3 "36" 36
    [⟨7, by omega⟩] ⟨"alice", "36", 36, 0⟩
    ⟨"alice", some ⟨216, 131, [⟨9, by omega⟩]⟩, 4, 0⟩ 2 rfl (by decide) rfl
    rfl (by decide) (by decide) (by decide) (by decide) rfl (by decide)

/-- Claim C5 counterexample: an unknown `user_id` with a valid
`(publicKey, publicKeyHash)` pair is NOT auto-registered when another
identity already holds the same `public_key_hash` — the UNIQUE
constraint makes the insert throw and the handler answers the generic
500, creating nothing. -/
theorem handler_autoregister_cex :
    handler ⟨[⟨"aaaaaaaa", "5", 5, 0⟩], []⟩ "bbbbbbbb"
        ⟨some "5", some 5, some [], some false⟩ 100 3
      = (⟨[⟨"aaaaaaaa", "5", 5, 0⟩], []⟩, [StoreEvent.readUser "bbbbbbbb"],
          .err 500 "Internal server error") ∧
    getUser (handler ⟨[⟨"aaaaaaaa", "5", 5, 0⟩], []⟩ "bbbbbbbb"
        ⟨some "5", some 5, some [], some false⟩ 100 3).1 "bbbbbbbb" = none := by
  constructor
  · decide
  · decide

/-- Claim C5 (amended): first sync for an unknown `user_id` with a valid
`(publicKey, publicKeyHash)` pair, when no existing identity holds the
same `public_key_hash`, creates the identity, stores the client's data
encrypted to the supplied public key, and answers
`needsMerge := false` with `version = 1`. -/
theorem handler_autoregister (db : Db) (uid : String) (req : SyncRequest)
    (now eph : Nat) (pkh : String) (pk : Nat) (data : List Byte)
    (hwf : db.wf) (h1 : req.publicKeyHash = some pkh) (h2 : pkh ≠ "")
    (h3 : req.publicKey = some pk) (h4 : req.data = some data)
    (h5 : sha256 pk = pkh) (h6 : getUser db uid = none)
    (h7 : ∀ u ∈ db.users, u.public_key_hash ≠ pkh) :
    (handler db uid req now eph).2.2
      = .ok ⟨encryptData data pk eph, 1, false⟩ ∧
    getUser (handler db uid req now eph).1 uid = some ⟨uid, pkh, pk, now⟩ ∧
    getUserData (handler db uid req now eph).1 uid
      = some ⟨uid, some (encryptData data pk eph), 1, now⟩ := by
  have h8 : getUserData db uid = none :=
    getUserData_eq_none_of_no_user db uid hwf h6
  have hany1 : db.users.any (fun u => u.public_key_hash == pkh) = false :=
    List.any_eq_false.mpr (fun u hu => by simpa using h7 u hu)
  have hany2 : db.users.any (fun u => u.uid == uid) = false :=
    List.any_eq_false.mpr (fun u hu => (List.find?_eq_none.mp h6) u hu)
  have hcu : createUser db uid pkh pk now
      = .ok ⟨db.users ++ [⟨uid, pkh, pk, now⟩], db.userData⟩ := by
    simp [createUser, hany1, hany2]
  have hg1 : getUser ⟨db.users ++ [⟨uid, pkh, pk, now⟩], db.userData⟩ uid
      = some ⟨uid, pkh, pk, now⟩ := by
    rw [getUser] at h6 ⊢
    rw [List.find?_append, h6]
    simp
  have h8' : getUserData ⟨db.users ++ [⟨uid, pkh, pk, now⟩], db.userData⟩ uid
      = none := h8
  have hred : handler db uid req now eph
      = handlerWrite ⟨db.users ++ [⟨uid, pkh, pk, now⟩], db.userData⟩
          [StoreEvent.readUser uid, StoreEvent.writeUser uid,
            StoreEvent.readUser uid, StoreEvent.readData uid] uid data
          ⟨uid, pkh, pk, now⟩ none now eph := by
    simp [handler, h1, h2, h3, h4, validatePublicKeyHash, h5, h6, hcu, hg1,
      handlerWithUser, h8']
  refine ⟨by rw [hred]; rfl, ?_, ?_⟩
  · rw [hred]
    show (saveUserData _ uid _ none now).1.users.find? (fun u => u.uid == uid)
      = _
    rw [users_saveUserData]
    exact hg1
  · rw [hred]
    exact getUserData_saveUserData
      ⟨db.users ++ [⟨uid, pkh, pk, now⟩], db.userData⟩ uid _ none now

/-- Witness for the amended C5: first sync on an empty store registers
the identity and stores version 1. -/
theorem handler_autoregister_witness :
    (handler ⟨[], []⟩ "bob" ⟨some "5", some 5, some [⟨1, by omega⟩],
        some false⟩ 100 3).2.2
      = .ok ⟨encryptData [⟨1, by omega⟩] 5 3, 1, false⟩ ∧
    getUser (handler ⟨[], []⟩ "bob" ⟨some "5", some 5, some [⟨1, by omega⟩],
        some false⟩ 100 3).1 "bob" = some ⟨"bob", "5", 5, 100⟩ ∧
    getUserData (handler ⟨[], []⟩ "bob" ⟨some "5", some 5,
        some [⟨1, by omega⟩], some false⟩ 100 3).1 "bob"
      = some ⟨"bob", some (encryptData [⟨1, by omega⟩] 5 3), 1, 100⟩ :=
  handler_autoregister ⟨[], []⟩ "bob"
    ⟨some "5", some 5, some [⟨1, by omega⟩], some false⟩ 100 3 "5" 5
    [⟨1, by omega⟩] (fun d hd => absurd hd (List.not_mem_nil d)) rfl
    (by decide) rfl rfl (by decide) (by decide)
    (fun u hu => absurd hu (List.not_mem_nil u))

/-! ## Client sync session (src/pages/Sync.tsx, `handleSync`)

The session's fallible collaborators — the two network round trips and
the JSON parse of the decrypted payload — are an environment of
`Except`-valued functions; decryption is the embedded `decryptData`.
The local user state (`user.tasks`, `user.categories`, `lastSyncedAt`)
is threaded explicitly; `setUser` is the returned state. -/

structure ClientUser where
  tasks : List Task
  categories : List Category
  deletedTasks : List String
  deletedCategories : List String
  lastSyncedAt : Option Nat
deriving Repr

structure SyncData where
  tasks : List Task
  categories : List Category
deriving Repr

/-- Client-side sync credentials (derived once, cached in localStorage). -/
structure SyncCreds where
  publicKey : Nat
  privateKey : Nat
deriving Repr

/-- The fallible collaborators of one sync session: `syncData` phase 1,
`JSON.parse` of the decrypted server payload, and `syncData` phase 2.
An `Except.error` is a thrown network/HTTP/parse error. -/
structure SyncEnv where
  phase1 : SyncData → Except String SyncResponse
  parse : List Byte → Except String SyncData
  phase2 : SyncData → Except String SyncResponse

inductive SyncOutcome where
  | success
  | failed (msg : String)
  | skipped
deriving DecidableEq, Repr

/-- `handleSync` from src/pages/Sync.tsx (lines 96-230): prepare and send
the local data (phase 1), decrypt the response, merge and resend if
`needsMerge` (phase 2), and only then commit the new local state; any
thrown error lands in the catch block, which touches no local data. -/
def handleSync (u : ClientUser) (creds : SyncCreds) (env : SyncEnv)
    (now : Nat) : ClientUser × SyncOutcome :=
  let localData : SyncData :=
    ⟨prepareTasks u.tasks now, prepareCategories u.categories now⟩
  match env.phase1 localData with
  | .error e => (u, .failed e)
  | .ok response =>
      match decryptData response.encryptedData creds.publicKey
          creds.privateKey with
      | none => (u, .failed "DecryptionError")
      | some decrypted =>
          match env.parse decrypted with
          | .error e => (u, .failed e)
          | .ok serverData =>
              if response.needsMerge then
                let mergedTasks :=
                  mergeTasks u.tasks serverData.tasks u.deletedTasks
                let mergedCategories :=
                  mergeCategories u.categories serverData.categories
                    u.deletedCategories
                match env.phase2 ⟨prepareTasks mergedTasks now,
                    prepareCategories mergedCategories now⟩ with
                | .error e => (u, .failed e)
                | .ok _ =>
                    ({ u with
                        tasks := mergedTasks
                        categories := mergedCategories
                        lastSyncedAt := some now }, .success)
              else
                ({ u with
                    tasks := serverData.tasks
                    categories := serverData.categories
                    lastSyncedAt := some now }, .success)

/-- `autoSync` from src/server/db.ts (lines 212-287 of the module): the
body of the debounced `setTimeout` callback.  Same fallible steps as
`handleSync` — phase 1, decrypt, parse, and phase 2 when `needsMerge` —
but the no-merge branch commits only `lastSyncedAt`, leaving tasks and
categories as they are (the catch block swallows the error after
touching no state; the outcome still records the failure). -/
def autoSyncSession (u : ClientUser) (creds : SyncCreds) (env : SyncEnv)
    (now : Nat) : ClientUser × SyncOutcome :=
  let localData : SyncData :=
    ⟨prepareTasks u.tasks now, prepareCategories u.categories now⟩
  match env.phase1 localData with
  | .error e => (u, .failed e)
  | .ok response =>
      match decryptData response.encryptedData creds.publicKey
          creds.privateKey with
      | none => (u, .failed "DecryptionError")
      | some decrypted =>
          match env.parse decrypted with
          | .error e => (u, .failed e)
          | .ok serverData =>
              if response.needsMerge then
                let mergedTasks :=
                  mergeTasks u.tasks serverData.tasks u.deletedTasks
                let mergedCategories :=
                  mergeCategories u.categories serverData.categories
                    u.deletedCategories
                match env.phase2 ⟨prepareTasks mergedTasks now,
                    prepareCategories mergedCategories now⟩ with
                | .error e => (u, .failed e)
                | .ok _ =>
                    ({ u with
                        tasks := mergedTasks
                        categories := mergedCategories
                        lastSyncedAt := some now }, .success)
              else
                ({ u with lastSyncedAt := some now }, .success)

/-- `autoSync` from src/server/db.ts (lines 176-287 of the module): the
entry guards — missing localStorage credentials (`creds = none`), the
unchanged-since-last-sync fingerprint (`dataUnchanged`), and the
`isSyncing` busy flag (`busy`) — drop the request silently without
touching any state; otherwise the debounced session body runs. -/
def autoSync (u : ClientUser) (creds : Option SyncCreds)
    (dataUnchanged busy : Bool) (env : SyncEnv) (now : Nat) :
    ClientUser × SyncOutcome :=
  match creds with
  | none => (u, .skipped)
  | some c =>
      if dataUnchanged then (u, .skipped)
      else if busy then (u, .skipped)
      else autoSyncSession u c env now

theorem handleSync_failed_fixes_state (u : ClientUser) (creds : SyncCreds)
    (env : SyncEnv) (now : Nat) (e : String)
    (h : (handleSync u creds env now).2 = .failed e) :
    (handleSync u creds env now).1 = u := by
  rw [handleSync] at h ⊢
  cases h1 : env.phase1 ⟨prepareTasks u.tasks now,
      prepareCategories u.categories now⟩ with
  | error e1 => rfl
  | ok response =>
      dsimp only at h ⊢
      cases h2 : decryptData response.encryptedData creds.publicKey
          creds.privateKey with
      | none => rfl
      | some decrypted =>
          dsimp only at h ⊢
          cases h3 : env.parse decrypted with
          | error e3 => rfl
          | ok serverData =>
              dsimp only at h ⊢
              by_cases h4 : response.needsMerge = true
              · rw [if_pos h4]
                cases h5 : env.phase2 ⟨prepareTasks (mergeTasks u.tasks
                    serverData.tasks u.deletedTasks) now,
                    prepareCategories (mergeCategories u.categories
                      serverData.categories u.deletedCategories) now⟩ with
                | error e5 => rfl
                | ok r => simp [h1, h2, h3, h4, h5] at h
              · rw [if_neg h4]
                simp [h1, h2, h3, h4] at h

theorem autoSyncSession_failed_fixes_state (u : ClientUser)
    (creds : SyncCreds) (env : SyncEnv) (now : Nat) (e : String)
    (h : (autoSyncSession u creds env now).2 = .failed e) :
    (autoSyncSession u creds env now).1 = u := by
  rw [autoSyncSession] at h ⊢
  cases h1 : env.phase1 ⟨prepareTasks u.tasks now,
      prepareCategories u.categories now⟩ with
  | error e1 => rfl
  | ok response =>
      dsimp only at h ⊢
      cases h2 : decryptData response.encryptedData creds.publicKey
          creds.privateKey with
      | none => rfl
      | some decrypted =>
          dsimp only at h ⊢
          cases h3 : env.parse decrypted with
          | error e3 => rfl
          | ok serverData =>
              dsimp only at h ⊢
              by_cases h4 : response.needsMerge = true
              · rw [if_pos h4]
                cases h5 : env.phase2 ⟨prepareTasks (mergeTasks u.tasks
                    serverData.tasks u.deletedTasks) now,
                    prepareCategories (mergeCategories u.categories
                      serverData.categories u.deletedCategories) now⟩ with
                | error e5 => rfl
                | ok r => simp [h1, h2, h3, h4, h5] at h
              · rw [if_neg h4]
                simp [h1, h2, h3, h4] at h

theorem autoSync_failed_fixes_state (u : ClientUser)
    (creds : Option SyncCreds) (dataUnchanged busy : Bool) (env : SyncEnv)
    (now : Nat) (e : String)
    (h : (autoSync u creds dataUnchanged busy env now).2 = .failed e) :
    (autoSync u creds dataUnchanged busy env now).1 = u := by
  cases creds with
  | none => rfl
  | some c =>
      cases dataUnchanged with
      | true => rfl
      | false =>
          cases busy with
          | true => rfl
          | false => exact autoSyncSession_failed_fixes_state u c env now e h

/-- Claim C9: if any step of a client sync session fails — phase-1 call,
decryption, parse, or phase-2 call — the session ends `failed` and the
local state (tasks, categories, lastSyncedAt) is returned exactly as it
was: no partial commit.  Both client code paths are covered: `handleSync`
(src/pages/Sync.tsx) and `autoSync` (src/server/db.ts, entry guards
included). -/
theorem sync_session_no_partial_commit :
    (∀ (u : ClientUser) (creds : SyncCreds) (env : SyncEnv) (now : Nat)
        (e : String), (handleSync u creds env now).2 = .failed e →
        (handleSync u creds env now).1 = u) ∧
    (∀ (u : ClientUser) (creds : Option SyncCreds) (dataUnchanged busy : Bool)
        (env : SyncEnv) (now : Nat) (e : String),
        (autoSync u creds dataUnchanged busy env now).2 = .failed e →
        (autoSync u creds dataUnchanged busy env now).1 = u) :=
  ⟨handleSync_failed_fixes_state, autoSync_failed_fixes_state⟩

/-- Witness for C9: concrete sessions whose phase-1 call throws leave a
concrete non-empty local state untouched, on both client paths. -/
theorem sync_session_no_partial_commit_witness :
    (handleSync ⟨[⟨"a", some 1, some 3, "A"⟩], [], ["z"], [], none⟩
      ⟨36, 2⟩ ⟨fun _ => .error "network", fun _ => .error "parse",
        fun _ => .error "network"⟩ 100).1
      = ⟨[⟨"a", some 1, some 3, "A"⟩], [], ["z"], [], none⟩ ∧
    (autoSync ⟨[⟨"a", some 1, some 3, "A"⟩], [], ["z"], [], none⟩
      (some ⟨36, 2⟩) false false ⟨fun _ => .error "network",
        fun _ => .error "parse", fun _ => .error "network"⟩ 100).1
      = ⟨[⟨"a", some 1, some 3, "A"⟩], [], ["z"], [], none⟩ :=
  ⟨sync_session_no_partial_commit.1 ⟨[⟨"a", some 1, some 3, "A"⟩], [], ["z"],
      [], none⟩ ⟨36, 2⟩ ⟨fun _ => .error "network", fun _ => .error "parse",
      fun _ => .error "network"⟩ 100 "network" rfl,
    sync_session_no_partial_commit.2 ⟨[⟨"a", some 1, some 3, "A"⟩], [], ["z"],
      [], none⟩ (some ⟨36, 2⟩) false false ⟨fun _ => .error "network",
      fun _ => .error "parse", fun _ => .error "network"⟩ 100 "network" rfl⟩

end TodoApp
